import Mathlib

/-!
Verification of the calculation engine of the Financial_Modelling repository
(src/finance.py) against its natural-language specification.

Modelling conventions:
* Python floats are modelled by exact rationals (ℚ) extended with the three
  non-finite IEEE values (+inf, -inf, nan), type `EF`.  Rounding is ignored;
  every claim settled here is insensitive to double rounding at the stated
  tolerances.
* A forecast entry, as seen by `calculate_dcf`, is the outcome of Python's
  `float(cf)` coercion: either a float value (`Entry.val`, possibly
  non-finite, since `float("inf")` succeeds) or a raised conversion error
  carrying a message (`Entry.bad`).
* Exceptions inside the `try` block of `calculate_dcf` are `PyExc`
  (`zeroDiv` for `ZeroDivisionError`, `other` for everything else, carrying
  `str(e)`); the function re-raises them as Python `ValueError`
  (`PyValueError`) exactly as the two `except` clauses do.  The spec's
  `ValidationError` / `DivisionByZeroError` taxonomy is realised in the
  source as this single `ValueError` kind with distinguishing messages.
-/

/-- Python float values: finite (exact rational), the two infinities, nan. -/
inductive EF
  | fin (q : ℚ)
  | pinf
  | ninf
  | nan
deriving DecidableEq, Repr

/-- IEEE addition on `EF` (`+` on Python floats): infinities of opposite
sign give nan; nan is absorbing. -/
def EF.add : EF → EF → EF
  | EF.fin a, EF.fin b => EF.fin (a + b)
  | EF.fin _, EF.pinf => EF.pinf
  | EF.fin _, EF.ninf => EF.ninf
  | EF.pinf, EF.fin _ => EF.pinf
  | EF.ninf, EF.fin _ => EF.ninf
  | EF.pinf, EF.pinf => EF.pinf
  | EF.ninf, EF.ninf => EF.ninf
  | EF.pinf, EF.ninf => EF.nan
  | EF.ninf, EF.pinf => EF.nan
  | EF.nan, _ => EF.nan
  | _, EF.nan => EF.nan

/-- Multiplication of an `EF` by a finite float (`x * q`): an infinity times
zero is nan, otherwise signs multiply. -/
def EF.mulQ : EF → ℚ → EF
  | EF.fin a, q => EF.fin (a * q)
  | EF.pinf, q => if 0 < q then EF.pinf else if q < 0 then EF.ninf else EF.nan
  | EF.ninf, q => if 0 < q then EF.ninf else if q < 0 then EF.pinf else EF.nan
  | EF.nan, _ => EF.nan

/-- Division of an `EF` by a nonzero finite float (`x / q`).  Division by
zero is not handled here: in Python it raises `ZeroDivisionError` for every
dividend, and callers model that raise explicitly before dividing. -/
def EF.divQ : EF → ℚ → EF
  | EF.fin a, q => EF.fin (a / q)
  | EF.pinf, q => if 0 < q then EF.pinf else EF.ninf
  | EF.ninf, q => if 0 < q then EF.ninf else EF.pinf
  | EF.nan, _ => EF.nan

/-- One forecast entry as `calculate_dcf` receives it: the outcome of the
`float(cf)` coercion — either a float value or a raised conversion error
with its description. -/
inductive Entry
  | val (x : EF)
  | bad (msg : String)
deriving DecidableEq, Repr

/-- An exception arising inside the `try` block of `calculate_dcf`:
`ZeroDivisionError`, or any other exception with its `str(e)` message. -/
inductive PyExc
  | zeroDiv
  | other (msg : String)
deriving DecidableEq, Repr

/-- A Python `ValueError`, the only exception kind `calculate_dcf` raises. -/
structure PyValueError where
  msg : String
deriving DecidableEq, Repr

/-- `float(cf)` on one entry (line 35 of finance.py, element step). -/
def Entry.toFloat : Entry → Except PyExc EF
  | Entry.val x => Except.ok x
  | Entry.bad m => Except.error (PyExc.other m)

/-- The list comprehension `[float(cf) for cf in cash_flows]` (line 35):
left to right, first conversion failure raises. -/
def convertAll : List Entry → Except PyExc (List EF)
  | [] => Except.ok []
  | e :: es => do
      let x ← Entry.toFloat e
      let xs ← convertAll es
      pure (x :: xs)

/-- One discounted cash flow `cf / ((1 + discount_rate) ** year)`
(line 38): Python raises `ZeroDivisionError` whenever the divisor is the
float zero, for every dividend including infinities and nan. -/
def discountOne (discount_rate : ℚ) (p : ℕ × EF) : Except PyExc EF :=
  if (1 + discount_rate) ^ p.1 = 0 then Except.error PyExc.zeroDiv
  else Except.ok (EF.divQ p.2 ((1 + discount_rate) ^ p.1))

/-- The list comprehension over `enumerate(cash_flows, start=1)`
(lines 37–39). -/
def discountAll (discount_rate : ℚ) : List (ℕ × EF) → Except PyExc (List EF)
  | [] => Except.ok []
  | p :: ps => do
      let x ← discountOne discount_rate p
      let xs ← discountAll discount_rate ps
      pure (x :: xs)

/-- `cash_flows[-1]` (line 40): the last element; on an empty list Python
raises `IndexError("list index out of range")`. -/
def lastElem : List EF → Except PyExc EF
  | [] => Except.error (PyExc.other "list index out of range")
  | [x] => Except.ok x
  | _ :: x :: xs => lastElem (x :: xs)

/-- Python `sum` of a list of floats (line 42), folding `+` from 0. -/
def sumEF (xs : List EF) : EF := xs.foldl EF.add (EF.fin 0)

/-- The `try` block of `calculate_dcf` (finance.py lines 35–42), with the
source's evaluation order: coerce all entries, build the discounted list,
index the last element, compute the terminal value (raising
`ZeroDivisionError` when `discount_rate - terminal_growth_rate` is zero),
discount it, and sum. -/
def calculate_dcf_body (cash_flows : List Entry)
    (discount_rate terminal_growth_rate : ℚ) : Except PyExc EF := do
  let cfs ← convertAll cash_flows
  let years := cfs.length
  let discounted_cash_flows ← discountAll discount_rate (cfs.enumFrom 1)
  let last ← lastElem cfs
  let terminal_value ←
    if discount_rate - terminal_growth_rate = 0 then
      Except.error PyExc.zeroDiv
    else
      Except.ok (EF.divQ (EF.mulQ last (1 + terminal_growth_rate))
        (discount_rate - terminal_growth_rate))
  let discounted_terminal_value ←
    if (1 + discount_rate) ^ years = 0 then
      Except.error PyExc.zeroDiv
    else
      Except.ok (EF.divQ terminal_value ((1 + discount_rate) ^ years))
  pure (EF.add (sumEF discounted_cash_flows) discounted_terminal_value)

/-- The two `except` clauses of `calculate_dcf` (lines 43–46):
`ZeroDivisionError` and every other exception are re-raised as `ValueError`
with the messages written in the source. -/
def wrapExc : PyExc → PyValueError
  | PyExc.zeroDiv =>
      ⟨"Discount rate and terminal growth rate must not result in division by zero."⟩
  | PyExc.other m => ⟨"Error in DCF calculation: " ++ m⟩

/-- `calculate_dcf` (finance.py lines 32–46): the `try` body with every
internal exception caught and re-raised as `ValueError`. -/
def calculate_dcf (cash_flows : List Entry)
    (discount_rate terminal_growth_rate : ℚ) : Except PyValueError EF :=
  match calculate_dcf_body cash_flows discount_rate terminal_growth_rate with
  | Except.ok v => Except.ok v
  | Except.error e => Except.error (wrapExc e)

/-- The income statement returned by `calculate_financials`, fields in the
order of the returned dict (finance.py lines 12–20). -/
structure Financials where
  revenue : ℚ
  cogs : ℚ
  grossProfit : ℚ
  operatingExpenses : ℚ
  operatingIncome : ℚ
  netIncome : ℚ
  taxRatePercent : ℚ
deriving DecidableEq, Repr

/-- `calculate_financials` (finance.py lines 8–20). -/
def calculate_financials (revenue cogs operating_expenses tax_rate : ℚ) :
    Financials :=
  let gross_profit := revenue - cogs
  let operating_income := gross_profit - operating_expenses
  let net_income := operating_income * (1 - tax_rate)
  ⟨revenue, cogs, gross_profit, operating_expenses, operating_income,
    net_income, tax_rate * 100⟩

/-- `generate_cash_flow_statement` (finance.py lines 22–30), fields in dict
order. -/
structure CashFlows where
  operatingCashFlow : ℚ
  investingCashFlow : ℚ
  totalCashFlow : ℚ
deriving DecidableEq, Repr

/-- `generate_cash_flow_statement` (finance.py lines 22–30). -/
def generate_cash_flow_statement (financials : Financials)
    (depreciation capex working_capital_change : ℚ) : CashFlows :=
  let operating_cash_flow :=
    financials.netIncome + depreciation - working_capital_change
  let investing_cash_flow := -capex
  ⟨operating_cash_flow, investing_cash_flow,
    operating_cash_flow + investing_cash_flow⟩

/-- One raw comma-separated token of the forecast text area, abstracted to
the outcome of `x.strip()` then `float(...)`: `blank` when the stripped
token is empty (discarded by the comprehension filter), `good x` when it
parses to the float `x`, `bad` when `float` raises. -/
inductive Token
  | blank
  | good (x : EF)
  | bad
deriving DecidableEq, Repr

/-- `float` applied to one kept token. -/
def Token.toFloat : Token → Option EF
  | Token.good x => some x
  | _ => none

/-- The forecast-parsing step (finance.py lines 82–88):
`[float(x.strip()) for x in s.split(",") if x.strip()]`, then the explicit
empty check; any `ValueError` is caught and the forecast set to `None`. -/
def parse_forecast (toks : List Token) : Option (List EF) :=
  let kept := toks.filter (fun t => match t with | Token.blank => false | _ => true)
  match kept.mapM Token.toFloat with
  | none => none
  | some cfs => if cfs.isEmpty then none else some cfs

/-- The DCF button handler (finance.py line 91–93): `calculate_dcf` runs
only when the parsed forecast is truthy (not `None` and not empty);
`none` means the valuator is never invoked. -/
def dcf_section (toks : List Token) (discount_rate terminal_growth_rate : ℚ) :
    Option (Except PyValueError EF) :=
  match parse_forecast toks with
  | none => none
  | some cfs =>
      if cfs.isEmpty then none
      else some (calculate_dcf (cfs.map Entry.val) discount_rate terminal_growth_rate)

/-- The last entry of a rational forecast, 0 for an empty one (mirrors the
recursion of `lastElem`). -/
def lastQ : List ℚ → ℚ
  | [] => 0
  | [c] => c
  | _ :: c :: cs => lastQ (c :: cs)

/-- The value `calculate_dcf` computes on an all-finite forecast, written
over ℚ with the discounted list built exactly as in lines 37–42: discounted
cash flows from `enumerate(cash_flows, start=1)`, plus the discounted
terminal value from the last entry. -/
def dcf_q (cfs : List ℚ) (r g : ℚ) : ℚ :=
  ((cfs.enumFrom 1).map (fun p => p.2 / (1 + r) ^ p.1)).sum +
    lastQ cfs * (1 + g) / (r - g) / (1 + r) ^ cfs.length

/-- The DCF formula as the specification states it (§4.3): the sum over
periods `t = 1..n` of `cf[t] / (1 + discountRate)^t`, plus
`cf[n] × (1 + terminalGrowthRate) / (discountRate − terminalGrowthRate)`
discounted by `(1 + discountRate)^n`. -/
def dcf_spec (cfs : List ℚ) (r g : ℚ) : ℚ :=
  (∑ t in Finset.range cfs.length, cfs.getD t 0 / (1 + r) ^ (t + 1)) +
    lastQ cfs * (1 + g) / (r - g) / (1 + r) ^ cfs.length

/-- Exact-arithmetic model of `np.arange(start, stop, step)` (finance.py
line 106): `ceil((stop - start) / step)` values `start + i * step`, the
half-open arithmetic progression `[start, stop)` that numpy documents.  The
Python source evaluates the length formula in IEEE doubles, where
`(0.2 - 0.05) / 0.01` rounds up to `15.000000000000002`; the exact-rational
semantics here is the intended one. -/
def arangeQ (start stop step : ℚ) : List ℚ :=
  (List.range (⌈(stop - start) / step⌉.toNat)).map
    (fun i : ℕ => start + (i : ℚ) * step)

/-- The list comprehension
`[calculate_dcf(cash_flow_forecast, rate, terminal_growth_rate) for rate in rates]`
(finance.py line 108): one valuation per rate, left to right, the first
failing valuation propagating out and aborting the sweep. -/
def sweepVals (cash_flow_forecast : List Entry) (terminal_growth_rate : ℚ) :
    List ℚ → Except PyValueError (List EF)
  | [] => Except.ok []
  | rate :: rs => do
      let v ← calculate_dcf cash_flow_forecast rate terminal_growth_rate
      let vs ← sweepVals cash_flow_forecast terminal_growth_rate rs
      pure (v :: vs)

/-- The Discount Rate sensitivity branch (finance.py lines 105–108): one
`calculate_dcf` call per swept rate over `np.arange(0.05, 0.20, 0.01)` with
the terminal growth rate held fixed. -/
def dcf_sweep (cash_flow_forecast : List Entry) (terminal_growth_rate : ℚ) :
    Except PyValueError (List EF) :=
  sweepVals cash_flow_forecast terminal_growth_rate (arangeQ (1/20) (1/5) (1/100))

lemma exc_bind_ok {ε α β : Type} (a : α) (f : α → Except ε β) :
    (do let x ← Except.ok a; f x : Except ε β) = f a := rfl

lemma exc_bind_err {ε α β : Type} (e : ε) (f : α → Except ε β) :
    (do let x ← (Except.error e : Except ε α); f x : Except ε β) =
      Except.error e := rfl

lemma convertAll_map_fin (cfs : List ℚ) :
    convertAll (cfs.map (fun q => Entry.val (EF.fin q))) =
      Except.ok (cfs.map EF.fin) := by
  induction cfs with
  | nil => rfl
  | cons c cs ih =>
      simp only [List.map_cons, convertAll, Entry.toFloat, ih]
      rfl

lemma discountAll_fin (r : ℚ) (hr : 1 + r ≠ 0) :
    ∀ (l : List ℚ) (k : ℕ),
      discountAll r ((l.map EF.fin).enumFrom k) =
        Except.ok ((l.enumFrom k).map (fun p => EF.fin (p.2 / (1 + r) ^ p.1)))
  | [], _ => rfl
  | c :: cs, k => by
    have hpow : (1 + r) ^ k ≠ 0 := pow_ne_zero _ hr
    simp only [List.map_cons, List.enumFrom, discountAll, discountOne,
      if_neg hpow, EF.divQ, exc_bind_ok, discountAll_fin r hr cs (k + 1)]
    rfl

lemma sumEF_foldl_fin (l : List ℚ) :
    ∀ a : ℚ, (l.map EF.fin).foldl EF.add (EF.fin a) = EF.fin (a + l.sum) := by
  induction l with
  | nil => intro a; simp
  | cons c cs ih =>
      intro a
      simp only [List.map_cons, List.foldl_cons, EF.add, ih, List.sum_cons]
      rw [add_assoc]

lemma sumEF_fin (l : List ℚ) : sumEF (l.map EF.fin) = EF.fin l.sum := by
  rw [sumEF, sumEF_foldl_fin l 0, zero_add]

lemma lastElem_fin : ∀ (l : List ℚ), l ≠ [] →
    lastElem (l.map EF.fin) = Except.ok (EF.fin (lastQ l))
  | [c], _ => rfl
  | c :: c2 :: cs, _ => by
      have h := lastElem_fin (c2 :: cs) (by simp)
      simp only [List.map_cons] at h ⊢
      rw [show lastElem (EF.fin c :: EF.fin c2 :: cs.map EF.fin) =
        lastElem (EF.fin c2 :: cs.map EF.fin) from rfl, h]
      rfl

/-- Bridge: on an all-finite forecast with `discountRate ≠ terminalGrowthRate`
and `1 + discountRate ≠ 0`, the body of `calculate_dcf` succeeds and returns
exactly the rational value `dcf_q`. -/
lemma calculate_dcf_body_fin (cfs : List ℚ) (r g : ℚ)
    (hne : cfs ≠ []) (hrg : r ≠ g) (hr : 1 + r ≠ 0) :
    calculate_dcf_body (cfs.map (fun q => Entry.val (EF.fin q))) r g =
      Except.ok (EF.fin (dcf_q cfs r g)) := by
  have hsub : r - g ≠ 0 := sub_ne_zero_of_ne hrg
  have hmap : (cfs.enumFrom 1).map (fun p => EF.fin (p.2 / (1 + r) ^ p.1)) =
      ((cfs.enumFrom 1).map (fun p => p.2 / (1 + r) ^ p.1)).map EF.fin := by
    rw [List.map_map]; rfl
  simp only [calculate_dcf_body, convertAll_map_fin, exc_bind_ok,
    discountAll_fin r hr, lastElem_fin cfs hne, List.length_map,
    if_neg hsub, if_neg (pow_ne_zero cfs.length hr), hmap, sumEF_fin,
    EF.mulQ, EF.divQ, EF.add, dcf_q]
  rfl

/-- Same bridge through the exception-wrapping layer. -/
lemma calculate_dcf_fin (cfs : List ℚ) (r g : ℚ)
    (hne : cfs ≠ []) (hrg : r ≠ g) (hr : 1 + r ≠ 0) :
    calculate_dcf (cfs.map (fun q => Entry.val (EF.fin q))) r g =
      Except.ok (EF.fin (dcf_q cfs r g)) := by
  rw [calculate_dcf, calculate_dcf_body_fin cfs r g hne hrg hr]

lemma enum_sum_range (r : ℚ) :
    ∀ (l : List ℚ) (k : ℕ),
      ((l.enumFrom k).map (fun p => p.2 / (1 + r) ^ p.1)).sum =
        ∑ i in Finset.range l.length, l.getD i 0 / (1 + r) ^ (k + i)
  | [], _ => by simp
  | c :: cs, k => by
      rw [List.enumFrom, List.map_cons, List.sum_cons,
        enum_sum_range r cs (k + 1), List.length_cons, Finset.sum_range_succ']
      have h1 : ∀ i, (c :: cs).getD (i + 1) 0 = cs.getD i 0 := fun i => rfl
      have h2 : (c :: cs).getD 0 0 = c := rfl
      rw [h2]
      have h3 : ∀ i, k + (i + 1) = k + 1 + i := fun i => by omega
      rw [add_comm]
      congr 1
      refine Finset.sum_congr rfl (fun i _ => ?_)
      rw [h1 i, h3 i]

lemma dcf_q_eq_spec (cfs : List ℚ) (r g : ℚ) :
    dcf_q cfs r g = dcf_spec cfs r g := by
  rw [dcf_q, dcf_spec, enum_sum_range r cfs 1]
  congr 1
  refine Finset.sum_congr rfl (fun i _ => ?_)
  rw [show 1 + i = i + 1 by omega]

lemma convertAll_vals : ∀ (cfs : List Entry),
    (∀ e ∈ cfs, ∃ x, e = Entry.val x) →
    ∃ vs : List EF, convertAll cfs = Except.ok vs ∧ vs.length = cfs.length
  | [], _ => ⟨[], rfl, rfl⟩
  | e :: es, h => by
      obtain ⟨x, hx⟩ := h e (List.mem_cons_self e es)
      obtain ⟨vs, hvs, hlen⟩ :=
        convertAll_vals es (fun a ha => h a (List.mem_cons_of_mem _ ha))
      subst hx
      refine ⟨x :: vs, ?_, by simp [hlen]⟩
      simp only [convertAll, Entry.toFloat, hvs]
      rfl

lemma convertAll_bad : ∀ (cfs : List Entry),
    (∃ m, Entry.bad m ∈ cfs) →
    ∃ m2, convertAll cfs = Except.error (PyExc.other m2)
  | [], h => absurd h.choose_spec (by simp)
  | Entry.bad m :: _, _ => ⟨m, rfl⟩
  | Entry.val x :: es, h => by
      obtain ⟨m, hm⟩ := h
      have hm2 : Entry.bad m ∈ es := by
        rcases List.mem_cons.mp hm with h1 | h1
        · exact absurd h1 (by simp)
        · exact h1
      obtain ⟨m2, hcv⟩ := convertAll_bad es ⟨m, hm2⟩
      refine ⟨m2, ?_⟩
      simp only [convertAll, Entry.toFloat, exc_bind_ok, hcv, exc_bind_err]

lemma discountAll_ok (r : ℚ) (hr : 1 + r ≠ 0) :
    ∀ ps : List (ℕ × EF), ∃ ds, discountAll r ps = Except.ok ds
  | [] => ⟨[], rfl⟩
  | p :: ps => by
      obtain ⟨ds, hds⟩ := discountAll_ok r hr ps
      refine ⟨EF.divQ p.2 ((1 + r) ^ p.1) :: ds, ?_⟩
      simp only [discountAll, discountOne, if_neg (pow_ne_zero p.1 hr),
        exc_bind_ok, hds]
      rfl

lemma discountAll_zero_rate (r : ℚ) (hr : 1 + r = 0) (v : EF) (vs : List EF) :
    discountAll r ((v :: vs).enumFrom 1) = Except.error PyExc.zeroDiv := by
  have h1 : (1 + r) ^ (1 : ℕ) = 0 := by rw [pow_one, hr]
  simp only [List.enumFrom, discountAll, discountOne, h1, if_pos, exc_bind_err]

lemma lastElem_ok : ∀ (xs : List EF), xs ≠ [] → ∃ x, lastElem xs = Except.ok x
  | [x], _ => ⟨x, rfl⟩
  | _ :: y :: ys, _ => by
      obtain ⟨z, hz⟩ := lastElem_ok (y :: ys) (by simp)
      exact ⟨z, hz⟩

/-- C1: for every non-empty all-finite forecast and rates with
`discountRate ≠ terminalGrowthRate` and `discountRate ≠ -1`,
`calculate_dcf` returns the spec formula of §4.3: the sum over `t = 1..n`
of `cf[t] / (1 + discountRate)^t` plus the terminal value
`cf[n] × (1 + terminalGrowthRate) / (discountRate − terminalGrowthRate)`
discounted by `(1 + discountRate)^n`. -/
theorem dcf_formula_correct (cfs : List ℚ) (r g : ℚ)
    (hne : cfs ≠ []) (hrg : r ≠ g) (hr : r ≠ -1) :
    calculate_dcf (cfs.map (fun q => Entry.val (EF.fin q))) r g =
      Except.ok (EF.fin (dcf_spec cfs r g)) := by
  have hr1 : 1 + r ≠ 0 := fun h => hr (by linarith)
  rw [calculate_dcf_fin cfs r g hne hrg hr1, dcf_q_eq_spec]

/-- Witness for C1 at the forecast `[100]`, rates `0.1` and `0.02`. -/
theorem dcf_formula_correct_witness :
    ([100] : List ℚ) ≠ [] ∧ (1/10 : ℚ) ≠ 1/50 ∧ (1/10 : ℚ) ≠ -1 ∧
    calculate_dcf (([100] : List ℚ).map (fun q => Entry.val (EF.fin q)))
        (1/10) (1/50) =
      Except.ok (EF.fin (dcf_spec [100] (1/10) (1/50))) :=
  ⟨by decide, by norm_num, by norm_num,
    dcf_formula_correct [100] (1/10) (1/50) (by decide) (by norm_num)
      (by norm_num)⟩

lemma dcf_eq_rates_error (cfs : List Entry) (r g : ℚ)
    (hne : cfs ≠ []) (hok : ∀ e ∈ cfs, ∃ x, e = Entry.val x) (heq : r = g) :
    calculate_dcf_body cfs r g = Except.error PyExc.zeroDiv ∧
    calculate_dcf cfs r g = Except.error
      ⟨"Discount rate and terminal growth rate must not result in division by zero."⟩ := by
  obtain ⟨vs, hvs, hlen⟩ := convertAll_vals cfs hok
  have hvne : vs ≠ [] := by
    intro h
    subst h
    exact hne (List.length_eq_zero.mp hlen.symm)
  have hbody : calculate_dcf_body cfs r g = Except.error PyExc.zeroDiv := by
    by_cases hr : 1 + r = 0
    · obtain ⟨v, vs2, rfl⟩ : ∃ v vs2, vs = v :: vs2 := by
        cases vs with
        | nil => exact absurd rfl hvne
        | cons v vs2 => exact ⟨v, vs2, rfl⟩
      simp only [calculate_dcf_body, hvs, exc_bind_ok,
        discountAll_zero_rate r hr v vs2, exc_bind_err]
    · obtain ⟨ds, hds⟩ := discountAll_ok r hr (vs.enumFrom 1)
      obtain ⟨x, hx⟩ := lastElem_ok vs hvne
      have hsub : r - g = 0 := by rw [heq]; ring
      simp only [calculate_dcf_body, hvs, exc_bind_ok, hds, hx,
        if_pos hsub, exc_bind_err]
  exact ⟨hbody, by simp only [calculate_dcf, hbody, wrapExc]⟩

/-- C2 counterexample: with `discountRate = terminalGrowthRate = 0.05` and
the one-period finite forecast `[100]`, `calculate_dcf` raises `ValueError`
with the source's message, which is not the message the claim states. -/
theorem dcf_equal_rates_message_cx :
    calculate_dcf [Entry.val (EF.fin 100)] (1/20) (1/20) =
      Except.error
        ⟨"Discount rate and terminal growth rate must not result in division by zero."⟩ ∧
    "Discount rate and terminal growth rate must not result in division by zero." ≠
      "discount rate and terminal growth rate must not be equal" :=
  ⟨(dcf_eq_rates_error [Entry.val (EF.fin 100)] (1/20) (1/20) (by decide)
      (fun e he => ⟨EF.fin 100, by rwa [List.mem_singleton] at he⟩) rfl).2,
    by decide⟩

/-- C2 amended: on every non-empty forecast all of whose entries coerce to
floats, `discountRate = terminalGrowthRate` makes the body of
`calculate_dcf` raise `ZeroDivisionError`, re-raised as `ValueError` with
the message "Discount rate and terminal growth rate must not result in
division by zero."; no number is ever returned. -/
theorem dcf_equal_rates_always_value_error (cfs : List Entry) (r g : ℚ)
    (hne : cfs ≠ []) (hok : ∀ e ∈ cfs, ∃ x, e = Entry.val x) (heq : r = g) :
    calculate_dcf_body cfs r g = Except.error PyExc.zeroDiv ∧
    calculate_dcf cfs r g = Except.error
      ⟨"Discount rate and terminal growth rate must not result in division by zero."⟩ :=
  dcf_eq_rates_error cfs r g hne hok heq

/-- Witness for the amended C2 at the forecast `[100]`, both rates `0.05`. -/
theorem dcf_equal_rates_always_value_error_witness :
    calculate_dcf_body [Entry.val (EF.fin 100)] (1/20) (1/20) =
      Except.error PyExc.zeroDiv ∧
    calculate_dcf [Entry.val (EF.fin 100)] (1/20) (1/20) = Except.error
      ⟨"Discount rate and terminal growth rate must not result in division by zero."⟩ :=
  dcf_equal_rates_always_value_error [Entry.val (EF.fin 100)] (1/20) (1/20)
    (by decide)
    (fun e he => ⟨EF.fin 100, by rwa [List.mem_singleton] at he⟩)
    rfl

/-- C3 counterexample: on the forecast `[100000, 110000, 121000, 133100]`
with `discountRate = 0.10` and `terminalGrowthRate = 0.02`, `calculate_dcf`
returns exactly `16750000/11 ≈ 1,522,727.27`, which is not within `±0.01`
of the claimed `1,515,763`. -/
lemma dcf_known_value_eval :
    calculate_dcf (([100000, 110000, 121000, 133100] : List ℚ).map
        (fun q => Entry.val (EF.fin q))) (1/10) (1/50) =
      Except.ok (EF.fin (16750000/11)) := by
  rw [calculate_dcf_fin [100000, 110000, 121000, 133100] (1/10) (1/50)
    (by decide) (by norm_num) (by norm_num)]
  norm_num [dcf_q, lastQ, List.enumFrom]

theorem dcf_known_value_cx :
    calculate_dcf (([100000, 110000, 121000, 133100] : List ℚ).map
        (fun q => Entry.val (EF.fin q))) (1/10) (1/50) =
      Except.ok (EF.fin (16750000/11)) ∧
    ¬ |(16750000/11 : ℚ) - 1515763| ≤ 1/100 := by
  refine ⟨dcf_known_value_eval, ?_⟩
  rw [abs_of_pos (by norm_num)]
  norm_num

/-- C3 amended: the known-value scenario returns `16750000/11`, within
`±0.01` of `1,522,727.27`. -/
theorem dcf_known_value_amended :
    calculate_dcf (([100000, 110000, 121000, 133100] : List ℚ).map
        (fun q => Entry.val (EF.fin q))) (1/10) (1/50) =
      Except.ok (EF.fin (16750000/11)) ∧
    |(16750000/11 : ℚ) - 152272727/100| ≤ 1/100 := by
  refine ⟨dcf_known_value_eval, ?_⟩
  rw [abs_of_pos (by norm_num)]
  norm_num

/-- C4: `calculate_dcf` on the empty forecast always fails with `ValueError`
(the `IndexError` from `cash_flows[-1]` caught and wrapped — the source's
realisation of the spec's `ValidationError`), for every pair of rates; and
the parsing layer (lines 82–91) never invokes the valuator on input that
yields an empty forecast: an all-blank token list gives `none`, and
whenever the DCF section does run the valuator, the parsed forecast was
non-empty. -/
theorem dcf_empty_forecast_rejected (r g : ℚ) :
    calculate_dcf [] r g =
      Except.error ⟨"Error in DCF calculation: list index out of range"⟩ ∧
    (∀ toks : List Token, (∀ t ∈ toks, t = Token.blank) →
      dcf_section toks r g = none) ∧
    (∀ toks res, dcf_section toks r g = some res →
      ∃ cfs, parse_forecast toks = some cfs ∧ cfs ≠ []) := by
  refine ⟨rfl, ?_, ?_⟩
  · intro toks htoks
    have hf : toks.filter
        (fun t => match t with | Token.blank => false | _ => true) = [] := by
      rw [List.filter_eq_nil_iff]
      intro t ht
      rw [htoks t ht]
      decide
    simp [dcf_section, parse_forecast, hf, List.mapM, List.mapM.loop]
  · intro toks res h
    cases hp : parse_forecast toks with
    | none =>
        have hs : dcf_section toks r g = none := by simp [dcf_section, hp]
        rw [hs] at h
        exact Option.noConfusion h
    | some cfs =>
        cases cfs with
        | nil => simp [dcf_section, hp] at h
        | cons c cs => exact ⟨c :: cs, rfl, by simp⟩

/-- Witness for C4 at rates `0.1` and `0.02`, with the all-blank token
list `[blank]`. -/
theorem dcf_empty_forecast_rejected_witness :
    calculate_dcf [] (1/10) (1/50) =
      Except.error ⟨"Error in DCF calculation: list index out of range"⟩ ∧
    dcf_section [Token.blank] (1/10) (1/50) = none :=
  ⟨(dcf_empty_forecast_rejected (1/10) (1/50)).1,
    (dcf_empty_forecast_rejected (1/10) (1/50)).2.1 [Token.blank]
      (fun t ht => by rwa [List.mem_singleton] at ht)⟩

/-- C5 counterexample: the entry `float("inf")` is not a finite number, yet
`calculate_dcf` accepts it and returns `+inf` instead of failing — the
source coerces with `float(...)` and never checks finiteness. -/
theorem dcf_nonfinite_entry_cx :
    calculate_dcf [Entry.val EF.pinf] (1/10) (1/50) = Except.ok EF.pinf := by
  norm_num [calculate_dcf, calculate_dcf_body, convertAll, Entry.toFloat,
    List.enumFrom, discountAll, discountOne, lastElem, sumEF, EF.mulQ,
    EF.divQ, EF.add, exc_bind_ok, exc_bind_err]

/-- C5 amended: for every forecast containing an entry whose `float`
coercion raises, `calculate_dcf` fails with `ValueError` wrapping the
underlying conversion failure's description, and never returns a value;
entries coercible to non-finite floats are accepted as-is. -/
theorem dcf_bad_entry_value_error (cfs : List Entry) (r g : ℚ)
    (h : ∃ m, Entry.bad m ∈ cfs) :
    ∃ m2, calculate_dcf cfs r g =
      Except.error ⟨"Error in DCF calculation: " ++ m2⟩ := by
  obtain ⟨m2, hcv⟩ := convertAll_bad cfs h
  refine ⟨m2, ?_⟩
  have hbody : calculate_dcf_body cfs r g = Except.error (PyExc.other m2) := by
    simp only [calculate_dcf_body, hcv, exc_bind_err]
  simp only [calculate_dcf, hbody, wrapExc]

/-- Witness for the amended C5 at the forecast `[bad "x"]`. -/
theorem dcf_bad_entry_value_error_witness :
    ∃ m2, calculate_dcf [Entry.bad "x"] (1/10) (1/50) =
      Except.error ⟨"Error in DCF calculation: " ++ m2⟩ :=
  dcf_bad_entry_value_error [Entry.bad "x"] (1/10) (1/50)
    ⟨"x", List.mem_singleton_self _⟩

/-- C8: the income statement satisfies the three accounting identities for
all non-negative inputs and tax rate in `[0, 1]`. -/
theorem calculate_financials_identities
    (revenue cogs operating_expenses tax_rate : ℚ)
    (h1 : 0 ≤ revenue) (h2 : 0 ≤ cogs) (h3 : 0 ≤ operating_expenses)
    (h4 : 0 ≤ tax_rate) (h5 : tax_rate ≤ 1) :
    (calculate_financials revenue cogs operating_expenses tax_rate).grossProfit
        + cogs = revenue ∧
    (calculate_financials revenue cogs operating_expenses tax_rate).operatingIncome
        + operating_expenses =
      (calculate_financials revenue cogs operating_expenses tax_rate).grossProfit ∧
    (calculate_financials revenue cogs operating_expenses tax_rate).netIncome =
      (calculate_financials revenue cogs operating_expenses tax_rate).operatingIncome
        * (1 - tax_rate) := by
  refine ⟨?_, ?_, ?_⟩ <;> simp [calculate_financials]

/-- Witness for C8 at the source's default sidebar values. -/
theorem calculate_financials_identities_witness :
    (calculate_financials 500000 300000 100000 (1/5)).grossProfit
        + 300000 = 500000 ∧
    (calculate_financials 500000 300000 100000 (1/5)).operatingIncome
        + 100000 =
      (calculate_financials 500000 300000 100000 (1/5)).grossProfit ∧
    (calculate_financials 500000 300000 100000 (1/5)).netIncome =
      (calculate_financials 500000 300000 100000 (1/5)).operatingIncome
        * (1 - 1/5) :=
  calculate_financials_identities 500000 300000 100000 (1/5)
    (by norm_num) (by norm_num) (by norm_num) (by norm_num) (by norm_num)

/-- C9: on every input, `calculate_dcf` either returns a value, or its body
raised some internal exception and the function re-raises it as
`ValueError` through `wrapExc` — no other exception kind escapes. -/
theorem calculate_dcf_only_value_error (cfs : List Entry) (r g : ℚ) :
    (∃ v, calculate_dcf cfs r g = Except.ok v ∧
      calculate_dcf_body cfs r g = Except.ok v) ∨
    (∃ e, calculate_dcf_body cfs r g = Except.error e ∧
      calculate_dcf cfs r g = Except.error (wrapExc e)) := by
  cases h : calculate_dcf_body cfs r g with
  | ok v => exact Or.inl ⟨v, by simp only [calculate_dcf, h], rfl⟩
  | error e => exact Or.inr ⟨e, rfl, by simp only [calculate_dcf, h]⟩

lemma lastQ_mem : ∀ (l : List ℚ), l ≠ [] → lastQ l ∈ l
  | [c], _ => by simp [lastQ]
  | _ :: c2 :: cs, _ => List.mem_cons_of_mem _ (lastQ_mem (c2 :: cs) (by simp))

lemma lastQ_map_mul (k : ℚ) : ∀ l : List ℚ,
    lastQ (l.map (fun c => k * c)) = k * lastQ l
  | [] => by simp [lastQ]
  | [_] => rfl
  | _ :: c2 :: cs => lastQ_map_mul k (c2 :: cs)

lemma enum_sum_map_mul (r k : ℚ) : ∀ (l : List ℚ) (n : ℕ),
    (((l.map (fun c => k * c)).enumFrom n).map
      (fun p => p.2 / (1 + r) ^ p.1)).sum =
      k * ((l.enumFrom n).map (fun p => p.2 / (1 + r) ^ p.1)).sum
  | [], _ => by simp
  | c :: cs, n => by
      simp only [List.map_cons, List.enumFrom, List.sum_cons,
        enum_sum_map_mul r k cs (n + 1)]
      ring

lemma dcf_q_hom (cfs : List ℚ) (r g k : ℚ) :
    dcf_q (cfs.map (fun c => k * c)) r g = k * dcf_q cfs r g := by
  rw [dcf_q, dcf_q, enum_sum_map_mul r k cfs 1, lastQ_map_mul k cfs,
    List.length_map]
  ring

/-- C10: `calculate_dcf` is homogeneous in the forecast — scaling every
entry by `k` scales the valuation by `k`, for every non-empty all-finite
forecast and rates with `discountRate ≠ terminalGrowthRate`,
`discountRate ≠ -1`. -/
theorem dcf_homogeneous (cfs : List ℚ) (k r g : ℚ)
    (hne : cfs ≠ []) (hrg : r ≠ g) (hr : r ≠ -1) :
    calculate_dcf ((cfs.map (fun c => k * c)).map
        (fun q => Entry.val (EF.fin q))) r g =
      Except.ok (EF.fin (k * dcf_q cfs r g)) ∧
    calculate_dcf (cfs.map (fun q => Entry.val (EF.fin q))) r g =
      Except.ok (EF.fin (dcf_q cfs r g)) := by
  have hr1 : 1 + r ≠ 0 := fun h => hr (by linarith)
  have hne2 : cfs.map (fun c => k * c) ≠ [] := by
    cases cfs with
    | nil => exact absurd rfl hne
    | cons a l => simp
  refine ⟨?_, calculate_dcf_fin cfs r g hne hrg hr1⟩
  rw [calculate_dcf_fin (cfs.map (fun c => k * c)) r g hne2 hrg hr1,
    dcf_q_hom]

/-- Witness for C10: doubling the forecast `[100]` doubles the valuation. -/
theorem dcf_homogeneous_witness :
    calculate_dcf ((([100] : List ℚ).map (fun c => (2 : ℚ) * c)).map
        (fun q => Entry.val (EF.fin q))) (1/10) (1/50) =
      Except.ok (EF.fin (2 * dcf_q [100] (1/10) (1/50))) ∧
    calculate_dcf (([100] : List ℚ).map (fun q => Entry.val (EF.fin q)))
        (1/10) (1/50) =
      Except.ok (EF.fin (dcf_q [100] (1/10) (1/50))) :=
  dcf_homogeneous [100] 2 (1/10) (1/50) (by decide) (by norm_num) (by norm_num)

lemma dcf_q_strict_anti (cfs : List ℚ) (g r1 r2 : ℚ)
    (hne : cfs ≠ []) (hpos : ∀ c ∈ cfs, 0 < c)
    (hg : -1 ≤ g) (hgr : g < r1) (hrr : r1 < r2) :
    dcf_q cfs r2 g < dcf_q cfs r1 g := by
  have h1p : (0 : ℚ) < 1 + r1 := by linarith
  have h2p : (0 : ℚ) < 1 + r2 := by linarith
  have hlen : 0 < cfs.length := List.length_pos.mpr hne
  rw [dcf_q, dcf_q, enum_sum_range r2 cfs 1, enum_sum_range r1 cfs 1]
  apply add_lt_add_of_lt_of_le
  · apply Finset.sum_lt_sum_of_nonempty
    · exact Finset.nonempty_range_iff.mpr (Nat.pos_iff_ne_zero.mp hlen)
    · intro i hi
      have hil : i < cfs.length := Finset.mem_range.mp hi
      have hci : 0 < cfs.getD i 0 := by
        rw [List.getD_eq_getElem cfs 0 hil]
        exact hpos _ (List.getElem_mem hil)
      exact div_lt_div_of_pos_left hci (pow_pos h1p _)
        (pow_lt_pow_left₀ (by linarith) (le_of_lt h1p) (by omega))
  · rw [div_div, div_div]
    have hNpos : 0 ≤ lastQ cfs * (1 + g) :=
      mul_nonneg (le_of_lt (hpos _ (lastQ_mem cfs hne))) (by linarith)
    have hD1 : 0 < (r1 - g) * (1 + r1) ^ cfs.length :=
      mul_pos (by linarith) (pow_pos h1p _)
    have hD12 : (r1 - g) * (1 + r1) ^ cfs.length ≤
        (r2 - g) * (1 + r2) ^ cfs.length := by
      have hp := pow_le_pow_left₀ (le_of_lt h1p)
        (by linarith : (1 : ℚ) + r1 ≤ 1 + r2) cfs.length
      have hq := pow_pos h1p cfs.length
      nlinarith
    exact div_le_div_of_nonneg_left hNpos hD1 hD12

/-- C6 counterexample: with the all-negative forecast `[-100]`, fixed
`terminalGrowthRate = 0.02` and discount rates `0.05 < 0.10`, both greater
than the growth rate, the valuation at the larger rate (`-1250`) is larger,
not smaller, than at the smaller rate (`-10000/3`). -/
theorem dcf_monotonicity_cx :
    calculate_dcf (([-100] : List ℚ).map (fun q => Entry.val (EF.fin q)))
        (1/10) (1/50) =
      Except.ok (EF.fin (-1250)) ∧
    calculate_dcf (([-100] : List ℚ).map (fun q => Entry.val (EF.fin q)))
        (1/20) (1/50) =
      Except.ok (EF.fin (-10000/3)) ∧
    ¬ ((-1250 : ℚ) < -10000/3) := by
  refine ⟨?_, ?_, by norm_num⟩
  · rw [calculate_dcf_fin [-100] (1/10) (1/50) (by decide) (by norm_num)
      (by norm_num)]
    norm_num [dcf_q, lastQ, List.enumFrom]
  · rw [calculate_dcf_fin [-100] (1/20) (1/50) (by decide) (by norm_num)
      (by norm_num)]
    norm_num [dcf_q, lastQ, List.enumFrom]

/-- C6 amended: for every non-empty forecast with all entries strictly
positive, every `terminalGrowthRate ≥ -1`, and discount rates
`r1 < r2` both strictly greater than the growth rate, the valuation
strictly decreases: `calculate_dcf` succeeds at both rates and the value at
`r2` is strictly below the value at `r1`. -/
theorem dcf_strict_antitone_in_discount_rate (cfs : List ℚ) (g r1 r2 : ℚ)
    (hne : cfs ≠ []) (hpos : ∀ c ∈ cfs, 0 < c) (hg : -1 ≤ g)
    (hgr : g < r1) (hrr : r1 < r2) :
    calculate_dcf (cfs.map (fun q => Entry.val (EF.fin q))) r1 g =
      Except.ok (EF.fin (dcf_q cfs r1 g)) ∧
    calculate_dcf (cfs.map (fun q => Entry.val (EF.fin q))) r2 g =
      Except.ok (EF.fin (dcf_q cfs r2 g)) ∧
    dcf_q cfs r2 g < dcf_q cfs r1 g := by
  have h1p : (0 : ℚ) < 1 + r1 := by linarith
  have h2p : (0 : ℚ) < 1 + r2 := by linarith
  exact ⟨calculate_dcf_fin cfs r1 g hne (ne_of_gt hgr) (ne_of_gt h1p),
    calculate_dcf_fin cfs r2 g hne (ne_of_gt (lt_trans hgr hrr))
      (ne_of_gt h2p),
    dcf_q_strict_anti cfs g r1 r2 hne hpos hg hgr hrr⟩

/-- Witness for the amended C6 at the forecast `[100]`, growth rate `0.02`,
discount rates `0.05 < 0.10`. -/
theorem dcf_strict_antitone_in_discount_rate_witness :
    calculate_dcf (([100] : List ℚ).map (fun q => Entry.val (EF.fin q)))
        (1/20) (1/50) =
      Except.ok (EF.fin (dcf_q [100] (1/20) (1/50))) ∧
    calculate_dcf (([100] : List ℚ).map (fun q => Entry.val (EF.fin q)))
        (1/10) (1/50) =
      Except.ok (EF.fin (dcf_q [100] (1/10) (1/50))) ∧
    dcf_q [100] (1/10) (1/50) < dcf_q [100] (1/20) (1/50) :=
  dcf_strict_antitone_in_discount_rate [100] (1/50) (1/20) (1/10) (by decide)
    (fun c hc => by rw [List.mem_singleton] at hc; rw [hc]; norm_num)
    (by norm_num) (by norm_num) (by norm_num)

lemma arangeQ_discount_length :
    (arangeQ (1/20) (1/5) (1/100)).length = 15 := by
  unfold arangeQ
  rw [List.length_map, List.length_range,
    show ((1 : ℚ)/5 - 1/20) / (1/100) = 15 by norm_num]
  decide

lemma arangeQ_discount_mem (rate : ℚ)
    (h : rate ∈ arangeQ (1/20) (1/5) (1/100)) :
    1/50 < rate ∧ (0 : ℚ) < 1 + rate := by
  unfold arangeQ at h
  rw [List.mem_map] at h
  obtain ⟨i, _, hrate⟩ := h
  have hterm : (0 : ℚ) ≤ (i : ℚ) * (1/100) := by positivity
  constructor <;> rw [← hrate] <;> linarith

lemma sweepVals_ok (cfs : List Entry) (g : ℚ) (G : ℚ → EF) :
    ∀ rates : List ℚ,
      (∀ rate ∈ rates, calculate_dcf cfs rate g = Except.ok (G rate)) →
      sweepVals cfs g rates = Except.ok (rates.map G)
  | [], _ => rfl
  | rate :: rs, h => by
      simp only [sweepVals, h rate (List.mem_cons_self rate rs), exc_bind_ok,
        sweepVals_ok cfs g G rs (fun a ha => h a (List.mem_cons_of_mem _ ha)),
        List.map_cons]
      rfl

/-- C7 (the sweep as specified, in exact arithmetic): the discount-rate
grid over `[0.05, 0.20)` step `0.01` has exactly 15 points, and for every
non-empty all-finite forecast the sweep with `terminalGrowthRate = 0.02`
succeeds, each point being exactly the direct `calculate_dcf` valuation at
that rate.  The Python source computes the same grid with `np.arange` in
IEEE doubles, where `(0.2 - 0.05)/0.01` rounds up to
`15.000000000000002` and `ceil` makes the grid 16 points long — the
recorded divergence of the code from this intended behaviour. -/
theorem sweep_fifteen_points (cfs : List ℚ) (hne : cfs ≠ []) :
    (arangeQ (1/20) (1/5) (1/100)).length = 15 ∧
    dcf_sweep (cfs.map (fun q => Entry.val (EF.fin q))) (1/50) =
      Except.ok ((arangeQ (1/20) (1/5) (1/100)).map
        (fun rate => EF.fin (dcf_q cfs rate (1/50)))) := by
  refine ⟨arangeQ_discount_length, ?_⟩
  rw [dcf_sweep]
  apply sweepVals_ok
  intro rate hr
  obtain ⟨hgr, hpos⟩ := arangeQ_discount_mem rate hr
  exact calculate_dcf_fin cfs rate (1/50) hne (ne_of_gt hgr) (ne_of_gt hpos)

/-- Witness for C7 at the source's default forecast. -/
theorem sweep_fifteen_points_witness :
    (arangeQ (1/20) (1/5) (1/100)).length = 15 ∧
    dcf_sweep (([100000, 110000, 121000, 133100] : List ℚ).map
        (fun q => Entry.val (EF.fin q))) (1/50) =
      Except.ok ((arangeQ (1/20) (1/5) (1/100)).map
        (fun rate => EF.fin (dcf_q [100000, 110000, 121000, 133100]
          rate (1/50)))) :=
  sweep_fifteen_points [100000, 110000, 121000, 133100] (by decide)
